import Mathlib

/-!
Verification of the nova firewall compilers (packet-filter compiler,
hypervisor-filter compiler, rule model and refresh path) against their
natural-language specification.  The enforcement logic itself is not part of
the shipped sources (only its conformance tests are), so every operational
definition below is modelled from the specification, faithful to its words,
and checked against the behaviours the conformance tests pin down.
-/

namespace NovaFirewall

/-! ## Packet-filter table model -/

/-- A single packet-filter rule: the chain it lives in and its textual body.
Modelled from the spec: a Chain is "a named, ordered list of packet-filter
rules within one address-family table". -/
structure IptRule where
  chain : String
  rule : String
deriving DecidableEq, Repr

/-- Modelled from the spec: EnforcedTable, "per address family, a set of named
chains, each an ordered list of rules". One value of this structure is one
address family's filter table as staged in memory. -/
structure IptablesTable where
  chains : List String
  rules : List IptRule
deriving DecidableEq, Repr

/-- Chain-existence test on the staged table (the has_chain operation the
refresh path consults). -/
def IptablesTable.has_chain (t : IptablesTable) (name : String) : Bool :=
  t.chains.contains name

/-- Add a chain to the staged table; adding an existing chain is a no-op
(the chain set is a set). -/
def IptablesTable.add_chain (t : IptablesTable) (name : String) : IptablesTable :=
  if t.chains.contains name then t else { t with chains := t.chains ++ [name] }

/-- Append one rule to a chain.  The rule list is ordered and not deduplicated
(the conformance tests note the table "doesn't make rules unique internally"). -/
def IptablesTable.add_rule (t : IptablesTable) (chain : String) (rule : String) :
    IptablesTable :=
  { t with rules := t.rules ++ [⟨chain, rule⟩] }

/-- Remove every rule of one chain, keeping the chain itself defined. -/
def IptablesTable.empty_chain (t : IptablesTable) (chain : String) : IptablesTable :=
  { t with rules := t.rules.filter (fun r => r.chain ≠ chain) }

/-- Number of rules currently in a given chain. -/
def IptablesTable.chainCount (t : IptablesTable) (chain : String) : Nat :=
  (t.rules.filter (fun r => r.chain = chain)).length

/-! ## Provider rules -/

/-- An operator-injected provider-level rule as fetched from the policy
source: protocol, port range and a CIDR. -/
structure ProviderRule where
  protocol : Option String
  cidr : Option String
  from_port : Int
  to_port : Int
deriving DecidableEq, Repr

/-- Render one provider rule to one textual packet-filter rule (one input
rule yields exactly one line in the provider chain). -/
def renderProviderRule (r : ProviderRule) : String :=
  let proto := match r.protocol with
    | some p => " -p " ++ p
    | none => ""
  let ports := match r.protocol with
    | some p =>
        if p = "tcp" ∨ p = "udp" then
          " -m multiport --dports " ++ toString r.from_port ++ ":" ++ toString r.to_port
        else ""
    | none => ""
  let src := match r.cidr with
    | some c => " -s " ++ c
    | none => ""
  "-j DROP" ++ proto ++ ports ++ src

/-- Modelled from the spec: `refresh_provider_fw_rules` "fetches the full
current set of provider-level rules from the external policy source and
replaces (not appends) the contents of the shared provider chain".  The
fetched set is passed in as `provider_rules`; the function purges the
provider chain, re-adds the chain, and adds one rendered rule per fetched
provider rule. -/
def refresh_provider_fw_rules (t : IptablesTable) (provider_rules : List ProviderRule) :
    IptablesTable :=
  let purged := t.empty_chain "provider"
  let withChain := purged.add_chain "provider"
  provider_rules.foldl (fun acc r => acc.add_rule "provider" (renderProviderRule r)) withChain

/-! ### Helper lemmas about the table operations -/

theorem chainCount_add_rule (t : IptablesTable) (c : String) (r : String) :
    (t.add_rule c r).chainCount c = t.chainCount c + 1 := by
  simp [IptablesTable.add_rule, IptablesTable.chainCount, List.filter_append]

theorem chainCount_add_chain (t : IptablesTable) (c c' : String) :
    (t.add_chain c).chainCount c' = t.chainCount c' := by
  unfold IptablesTable.add_chain
  split <;> rfl

theorem chainCount_empty_chain (t : IptablesTable) (c : String) :
    (t.empty_chain c).chainCount c = 0 := by
  simp only [IptablesTable.empty_chain, IptablesTable.chainCount, List.length_eq_zero,
    List.filter_eq_nil_iff]
  intro a ha
  have := List.of_mem_filter ha
  simp_all

theorem chainCount_foldl_add (rs : List ProviderRule) (t : IptablesTable) (c : String) :
    (rs.foldl (fun acc r => acc.add_rule c (renderProviderRule r)) t).chainCount c
      = t.chainCount c + rs.length := by
  induction rs generalizing t with
  | nil => simp
  | cons r rs ih =>
      simp only [List.foldl_cons, List.length_cons, ih, chainCount_add_rule]
      omega

theorem refresh_provider_count (t : IptablesTable) (rs : List ProviderRule) :
    (refresh_provider_fw_rules t rs).chainCount "provider" = rs.length := by
  unfold refresh_provider_fw_rules
  rw [chainCount_foldl_add, chainCount_add_chain, chainCount_empty_chain, Nat.zero_add]

/-- C1: `refresh_provider_fw_rules` replaces, rather than appends to, the
provider chain: after any invocation with N provider rules the provider chain
holds exactly N rules, whatever sequence of invocations came before (so the
1, 2, 1 input sequence yields counts 1, 2, 1), and re-invocation with an
unchanged input leaves the rule count unchanged. -/
theorem provider_fw_rules_replace (t : IptablesTable) (rs : List ProviderRule)
    (r1 r2a r2b r3 : ProviderRule) :
    (refresh_provider_fw_rules t rs).chainCount "provider" = rs.length
    ∧ (refresh_provider_fw_rules (refresh_provider_fw_rules t rs) rs).chainCount "provider"
        = (refresh_provider_fw_rules t rs).chainCount "provider"
    ∧ (refresh_provider_fw_rules t [r1]).chainCount "provider" = 1
    ∧ (refresh_provider_fw_rules (refresh_provider_fw_rules t [r1]) [r2a, r2b]).chainCount
        "provider" = 2
    ∧ (refresh_provider_fw_rules (refresh_provider_fw_rules
        (refresh_provider_fw_rules t [r1]) [r2a, r2b]) [r3]).chainCount "provider" = 1 := by
  refine ⟨refresh_provider_count t rs, ?_, ?_, ?_, ?_⟩ <;>
    simp [refresh_provider_count]

/-! ## Tracked instances and the batch security-group refresh -/

/-- An instance reference: the integer database id, the uuid, and the
instance's display name. -/
structure InstanceRef where
  id : Nat
  uuid : String
  name : String
deriving DecidableEq, Repr

/-- Modelled from the spec: the packet-filter compiler names each instance's
dedicated chain "deterministically from the instance identity"; the
conformance tests pin the scheme down as the literal prefix "inst-" followed
by the instance's integer database id. -/
def _instance_chain_name (inst : InstanceRef) : String :=
  "inst-" ++ toString inst.id

/-- Observable actions of one batch-refresh pass, recorded in order. -/
inductive RefreshEvent where
  | instanceRules (id : Nat)
  | hasChain (name : String) (present : Bool)
  | addChain (name : String)
  | addRules (id : Nat)
deriving DecidableEq, Repr

/-- Modelled from the spec: reapplication of one instance's filtering re-adds
the instance's dedicated chain and its recomputed rules to the staged
table. -/
def add_filters_for_instance (t : IptablesTable) (inst : InstanceRef)
    (rules : List String) : IptablesTable × List RefreshEvent :=
  let cn := _instance_chain_name inst
  let t1 := t.add_chain cn
  let t2 := rules.foldl (fun acc r => acc.add_rule cn r) t1
  (t2, [RefreshEvent.addChain cn, RefreshEvent.addRules inst.id])

/-- One tracked instance of the batch: recompute the instance's rules, then
check whether the instance's chain still exists in the live table; if it does
not, skip reapplication for that instance; otherwise reapply.  `rulesFor`
stands for the instance_rules recomputation (its output does not influence
the control flow modelled here). -/
def do_refresh_step (rulesFor : InstanceRef → List String)
    (acc : IptablesTable × List RefreshEvent) (inst : InstanceRef) :
    IptablesTable × List RefreshEvent :=
  let t := acc.1
  let rules := rulesFor inst
  let cn := _instance_chain_name inst
  let present := t.has_chain cn
  let tr1 := acc.2 ++ [RefreshEvent.instanceRules inst.id, RefreshEvent.hasChain cn present]
  if present then
    let res := add_filters_for_instance t inst rules
    (res.1, tr1 ++ res.2)
  else
    (t, tr1)

/-- Modelled from the spec: `do_refresh_security_group_rules` walks every
instance currently tracked as filtered, recomputes its rules, checks chain
existence, and either reapplies or skips — one missing chain never aborts
the batch.  Returns the final staged table and the ordered event trace. -/
def do_refresh_security_group_rules (t : IptablesTable)
    (rulesFor : InstanceRef → List String) (tracked : List InstanceRef) :
    IptablesTable × List RefreshEvent :=
  tracked.foldl (do_refresh_step rulesFor) (t, [])

/-- Names of the chain-existence checks in a trace, in order. -/
def checksOf (tr : List RefreshEvent) : List String :=
  tr.filterMap (fun ev => match ev with
    | RefreshEvent.hasChain n _ => some n
    | _ => none)

/-- Ids for which instance rules were recomputed, in order. -/
def rulesComputedOf (tr : List RefreshEvent) : List Nat :=
  tr.filterMap (fun ev => match ev with
    | RefreshEvent.instanceRules i => some i
    | _ => none)

/-! ### Helper lemmas about the batch refresh -/

theorem checksOf_append (a b : List RefreshEvent) :
    checksOf (a ++ b) = checksOf a ++ checksOf b := by
  simp [checksOf, List.filterMap_append]

theorem rulesComputedOf_append (a b : List RefreshEvent) :
    rulesComputedOf (a ++ b) = rulesComputedOf a ++ rulesComputedOf b := by
  simp [rulesComputedOf, List.filterMap_append]

theorem do_refresh_step_chains (rulesFor : InstanceRef → List String)
    (t : IptablesTable) (tr : List RefreshEvent) (inst : InstanceRef) :
    (do_refresh_step rulesFor (t, tr) inst).1.chains = t.chains := by
  unfold do_refresh_step add_filters_for_instance
  by_cases h : t.has_chain (_instance_chain_name inst)
  · have hchains : (t.add_chain (_instance_chain_name inst)).chains = t.chains := by
      unfold IptablesTable.add_chain
      simp [IptablesTable.has_chain] at h
      simp [h]
    simp only [h, if_pos, if_true]
    have hfold : ∀ (rs : List String) (u : IptablesTable),
        (rs.foldl (fun acc r => acc.add_rule (_instance_chain_name inst) r) u).chains
          = u.chains := by
      intro rs
      induction rs with
      | nil => intro u; rfl
      | cons r rs ih =>
          intro u
          simp only [List.foldl_cons, ih]
          rfl
    simp [hfold, hchains]
  · simp [h]

theorem do_refresh_foldl_chains (rulesFor : InstanceRef → List String)
    (tracked : List InstanceRef) (t : IptablesTable) (tr : List RefreshEvent) :
    (tracked.foldl (do_refresh_step rulesFor) (t, tr)).1.chains = t.chains := by
  induction tracked generalizing t tr with
  | nil => rfl
  | cons i is ih =>
      simp only [List.foldl_cons]
      have hstep := do_refresh_step_chains rulesFor t tr i
      rcases hres : do_refresh_step rulesFor (t, tr) i with ⟨t1, tr1⟩
      rw [hres] at hstep
      rw [ih t1 tr1]
      exact hstep

theorem do_refresh_step_trace (rulesFor : InstanceRef → List String)
    (t : IptablesTable) (tr : List RefreshEvent) (inst : InstanceRef) :
    ∃ new : List RefreshEvent,
      (do_refresh_step rulesFor (t, tr) inst).2 = tr ++ new
      ∧ checksOf new = [_instance_chain_name inst]
      ∧ rulesComputedOf new = [inst.id]
      ∧ (∀ n, RefreshEvent.addChain n ∈ new → t.has_chain n = true) := by
  unfold do_refresh_step add_filters_for_instance
  by_cases h : t.has_chain (_instance_chain_name inst)
  · refine ⟨[RefreshEvent.instanceRules inst.id,
      RefreshEvent.hasChain (_instance_chain_name inst) true,
      RefreshEvent.addChain (_instance_chain_name inst),
      RefreshEvent.addRules inst.id], ?_, ?_, ?_, ?_⟩
    · simp [h]
    · simp [checksOf]
    · simp [rulesComputedOf]
    · intro n hn
      simp only [List.mem_cons, List.mem_singleton] at hn
      rcases hn with h1 | h1 | h1 | h1 <;> simp_all
  · refine ⟨[RefreshEvent.instanceRules inst.id,
      RefreshEvent.hasChain (_instance_chain_name inst) false], ?_, ?_, ?_, ?_⟩
    · simp only [Bool.not_eq_true] at h
      simp [h]
    · simp [checksOf]
    · simp [rulesComputedOf]
    · intro n hn
      simp only [List.mem_cons, List.mem_singleton] at hn
      rcases hn with h1 | h1 <;> simp_all

theorem do_refresh_foldl_trace (rulesFor : InstanceRef → List String)
    (tracked : List InstanceRef) (t : IptablesTable) (tr : List RefreshEvent) :
    ∃ new : List RefreshEvent,
      (tracked.foldl (do_refresh_step rulesFor) (t, tr)).2 = tr ++ new
      ∧ checksOf new = tracked.map _instance_chain_name
      ∧ rulesComputedOf new = tracked.map InstanceRef.id
      ∧ (∀ n, RefreshEvent.addChain n ∈ new → t.has_chain n = true) := by
  induction tracked generalizing t tr with
  | nil => exact ⟨[], by simp, rfl, rfl, by simp⟩
  | cons i is ih =>
      simp only [List.foldl_cons]
      obtain ⟨new1, hnew1, hc1, hr1, ha1⟩ := do_refresh_step_trace rulesFor t tr i
      have hch := do_refresh_step_chains rulesFor t tr i
      rcases hres : do_refresh_step rulesFor (t, tr) i with ⟨t1, tr1⟩
      rw [hres] at hnew1 hch
      simp only at hnew1 hch
      subst hnew1
      obtain ⟨new2, hnew2, hc2, hr2, ha2⟩ := ih t1 (tr ++ new1)
      refine ⟨new1 ++ new2, by simpa using hnew2, ?_, ?_, ?_⟩
      · rw [checksOf_append, hc1, hc2]
        rfl
      · rw [rulesComputedOf_append, hr1, hr2]
        rfl
      · intro n hn
        rcases List.mem_append.mp hn with hmem | hmem
        · exact ha1 n hmem
        · have := ha2 n hmem
          simpa [IptablesTable.has_chain, hch] using this

/-- C2: the batch refresh checks chain existence exactly once per tracked
instance; an instance whose chain is absent from the live table is skipped
without its chain ever being re-added; and every tracked instance is still
processed (its rules are recomputed), so one missing chain never aborts the
batch. -/
theorem do_refresh_skips_missing_chains (t : IptablesTable)
    (rulesFor : InstanceRef → List String) (tracked : List InstanceRef) :
    checksOf (do_refresh_security_group_rules t rulesFor tracked).2
        = tracked.map _instance_chain_name
    ∧ rulesComputedOf (do_refresh_security_group_rules t rulesFor tracked).2
        = tracked.map InstanceRef.id
    ∧ (∀ inst ∈ tracked, t.has_chain (_instance_chain_name inst) = false →
        RefreshEvent.addChain (_instance_chain_name inst)
          ∉ (do_refresh_security_group_rules t rulesFor tracked).2) := by
  obtain ⟨new, hnew, hc, hr, ha⟩ := do_refresh_foldl_trace rulesFor tracked t []
  unfold do_refresh_security_group_rules
  rw [hnew]
  simp only [List.nil_append]
  refine ⟨hc, hr, ?_⟩
  intro inst _ habsent hmem
  have := ha _ hmem
  rw [habsent] at this
  exact Bool.false_ne_true this

/-- Witness for C2 at the conformance test's configuration: two tracked
instances with ids 1 and 2, neither chain present in the live table; both are
checked and processed, and the chain "inst-1" is never re-added. -/
theorem do_refresh_skips_missing_chains_witness :
    checksOf (do_refresh_security_group_rules ⟨["provider"], []⟩ (fun _ => [])
        [⟨1, "fake-uuid1", "instance-1"⟩, ⟨2, "fake-uuid2", "instance-2"⟩]).2 = ["inst-1", "inst-2"]
    ∧ rulesComputedOf (do_refresh_security_group_rules ⟨["provider"], []⟩ (fun _ => [])
        [⟨1, "fake-uuid1", "instance-1"⟩, ⟨2, "fake-uuid2", "instance-2"⟩]).2 = [1, 2]
    ∧ RefreshEvent.addChain "inst-1"
        ∉ (do_refresh_security_group_rules ⟨["provider"], []⟩ (fun _ => [])
        [⟨1, "fake-uuid1", "instance-1"⟩, ⟨2, "fake-uuid2", "instance-2"⟩]).2 := by
  have h := do_refresh_skips_missing_chains ⟨["provider"], []⟩ (fun _ => [])
    [⟨1, "fake-uuid1", "instance-1"⟩, ⟨2, "fake-uuid2", "instance-2"⟩]
  refine ⟨?_, ?_, ?_⟩
  · rw [h.1]; rfl
  · rw [h.2.1]; rfl
  · exact h.2.2 ⟨1, "fake-uuid1", "instance-1"⟩ (by simp) (by decide)

/-- C10: the instance chain name is the literal prefix "inst-" followed by
the instance's integer database id — the uuid plays no part — and the batch
refresh performs its existence checks against exactly these names. -/
theorem chain_name_is_inst_integer_id (t : IptablesTable)
    (rulesFor : InstanceRef → List String) (tracked : List InstanceRef) :
    (∀ inst : InstanceRef, _instance_chain_name inst = "inst-" ++ toString inst.id)
    ∧ (∀ i : Nat, ∀ u1 u2 nm1 nm2 : String,
        _instance_chain_name ⟨i, u1, nm1⟩ = _instance_chain_name ⟨i, u2, nm2⟩)
    ∧ checksOf (do_refresh_security_group_rules t rulesFor tracked).2
        = tracked.map (fun inst => "inst-" ++ toString inst.id)
    ∧ _instance_chain_name ⟨7, "74526555-9166-4893-a203-126bdcab0d67", "instance-7"⟩ = "inst-7" := by
  obtain ⟨new, hnew, hc, _, _⟩ := do_refresh_foldl_trace rulesFor tracked t []
  refine ⟨fun _ => rfl, fun _ _ _ _ _ => rfl, ?_, rfl⟩
  unfold do_refresh_security_group_rules
  rw [hnew]
  simpa [_instance_chain_name] using hc

/-! ## Dump-and-restore commit of the staged table -/

/-- Whether a character sequence starts with the binary name "nova". -/
def startsWithNova : List Char → Bool
  | 'n' :: 'o' :: 'v' :: 'a' :: _ => true
  | _ => false

/-- Whether the binary name "nova" occurs anywhere in a character sequence. -/
def hasNova : List Char → Bool
  | [] => false
  | c :: rest => startsWithNova (c :: rest) || hasNova rest

/-- Whether a dump line belongs to this system: the external chains and rules
this system owns all carry the binary name "nova" (the conformance tests use
the same membership test). -/
def isSystemLine (l : String) : Bool :=
  hasNova l.data

/-- Render a staged chain declaration in the external save format, wrapped
with the binary-name prefix under which this system owns chains. -/
def renderChainDecl (c : String) : String :=
  ":nova-compute-" ++ c ++ " - [0:0]"

/-- Render a staged rule in the external save format, wrapped with the
binary-name prefix under which this system owns chains. -/
def renderRuleLine (r : IptRule) : String :=
  "[0:0] -A nova-compute-" ++ r.chain ++ " " ++ r.rule

/-- The system-owned lines regenerated from the staged table: the staged
chain declarations followed by the staged rules, in stable order. -/
def stagedLines (staged : IptablesTable) : List String :=
  staged.chains.map renderChainDecl ++ staged.rules.map renderRuleLine

/-- Insert the regenerated system lines immediately before the terminal
COMMIT marker of the table section (at the end when no marker exists). -/
def insertBeforeCommit (lines new : List String) : List String :=
  match lines with
  | [] => new
  | l :: rest =>
      if l = "COMMIT" then new ++ (l :: rest)
      else l :: insertBeforeCommit rest new

/-- Modelled from the spec: prepare_instance_filter "computes desired rules
and stages them against an in-memory snapshot of the current filter table":
the instance's dedicated chain, a leading jump to the shared provider chain,
then one rule per concrete permit, in stable order. -/
def prepare_instance_filter (t : IptablesTable) (inst : InstanceRef)
    (rules : List String) : IptablesTable :=
  let cn := _instance_chain_name inst
  let t1 := ((t.add_chain cn).add_chain "provider").add_rule cn "-j provider"
  rules.foldl (fun acc r => acc.add_rule cn r) t1

/-- Modelled from the spec: apply_instance_filter "writes the merged table
back via the external subsystem's bulk restore operation"; the merge strips
every line this system owns from the dumped current state, carries every
other line over byte-for-byte, and splices the regenerated system-owned
lines back in before the table's COMMIT marker.  The result is the text
handed to the bulk restore. -/
def apply_instance_filter (dump : List String) (staged : IptablesTable) :
    List String :=
  insertBeforeCommit (dump.filter (fun l => ¬ isSystemLine l)) (stagedLines staged)

theorem mem_insertBeforeCommit (lines new : List String) (l : String)
    (h : l ∈ lines) : l ∈ insertBeforeCommit lines new := by
  induction lines with
  | nil => cases h
  | cons a rest ih =>
      unfold insertBeforeCommit
      rcases List.mem_cons.mp h with h1 | h1
      · subst h1
        split
        · simp
        · exact List.mem_cons_self _ _
      · split
        · simp [h1]
        · exact List.mem_cons_of_mem _ (ih h1)

/-- C9: the prepare/apply cycle preserves every pre-existing dump line that
does not belong to this system (comments, unrelated chains, unrelated rules)
byte-faithfully: each such line of the dump appears unchanged in the table
handed to the bulk restore, for every staged table — in particular for any
table staged by prepare_instance_filter. -/
theorem apply_preserves_foreign_lines (dump : List String)
    (t : IptablesTable) (inst : InstanceRef) (rules : List String)
    (l : String) (hmem : l ∈ dump) (hforeign : isSystemLine l = false) :
    l ∈ apply_instance_filter dump (prepare_instance_filter t inst rules)
    ∧ ∀ staged : IptablesTable, l ∈ apply_instance_filter dump staged := by
  have base : ∀ staged : IptablesTable, l ∈ apply_instance_filter dump staged := by
    intro staged
    unfold apply_instance_filter
    apply mem_insertBeforeCommit
    exact List.mem_filter.mpr ⟨hmem, by simp [hforeign]⟩
  exact ⟨base _, base⟩

/-- Witness for C9 on a fragment of the conformance tests' dumped table: the
pre-existing INPUT-policy line and the virbr0 FORWARD rule survive the
prepare/apply cycle of an instance with one permit rule. -/
theorem apply_preserves_foreign_lines_witness :
    ":INPUT ACCEPT [969615:281627771]"
        ∈ ["# Generated by iptables-save v1.4.4 on Mon Dec  6 11:54:13 2010",
           "*filter", ":INPUT ACCEPT [969615:281627771]",
           "[0:0] -A FORWARD -i virbr0 -o virbr0 -j ACCEPT ", "COMMIT"]
    ∧ isSystemLine ":INPUT ACCEPT [969615:281627771]" = false
    ∧ ":INPUT ACCEPT [969615:281627771]"
        ∈ apply_instance_filter
          ["# Generated by iptables-save v1.4.4 on Mon Dec  6 11:54:13 2010",
           "*filter", ":INPUT ACCEPT [969615:281627771]",
           "[0:0] -A FORWARD -i virbr0 -o virbr0 -j ACCEPT ", "COMMIT"]
          (prepare_instance_filter ⟨[], []⟩ ⟨7, "74526555", "instance-7"⟩
            ["-j ACCEPT -s 192.168.11.0/24"]) := by
  refine ⟨by decide, by decide, ?_⟩
  exact (apply_preserves_foreign_lines
    ["# Generated by iptables-save v1.4.4 on Mon Dec  6 11:54:13 2010",
     "*filter", ":INPUT ACCEPT [969615:281627771]",
     "[0:0] -A FORWARD -i virbr0 -o virbr0 -j ACCEPT ", "COMMIT"]
    ⟨[], []⟩ ⟨7, "74526555", "instance-7"⟩ ["-j ACCEPT -s 192.168.11.0/24"]
    ":INPUT ACCEPT [969615:281627771]" (by decide) (by decide)).1

/-! ## Rule model: expansion of security-group rules -/

/-- A fixed ip address of an instance interface, with its address family
(4 or 6). -/
structure FixedIP where
  address : String
  version : Nat
deriving DecidableEq, Repr

/-- A security-group rule: protocol (tcp/udp/icmp or none for "any"), port
range (with the (-1, -1) sentinel for icmp type and code wildcards), and one
source specifier — a CIDR literal or a grantee-group reference (by id);
when neither is given the rule matches all traffic. -/
structure SecurityGroupRule where
  protocol : Option String
  from_port : Option Int
  to_port : Option Int
  cidr : Option String
  grantee_group : Option Nat
deriving DecidableEq, Repr

/-- A concrete per-address permit rule produced by expansion. -/
structure ConcreteRule where
  protocol : Option String
  portSpec : List String
  source : Option String
  dest : String
deriving DecidableEq, Repr

/-- The address family of a CIDR literal (a colon marks v6). -/
def cidrVersion (c : String) : Nat :=
  if c.data.contains ':' then 6 else 4

/-- The host-CIDR suffix for a resolved member address of a family. -/
def hostSuffix (version : Nat) : String :=
  if version = 4 then "/32" else "/128"

/-- Modelled from the spec: protocol-specific shaping — ICMP uses (type,code)
instead of a port range, with -1 meaning wildcard; a TCP/UDP port range
collapses to a single rule, using a multi-port match when the range spans
more than one value. -/
def shapePorts (r : SecurityGroupRule) : List String :=
  match r.protocol with
  | none => []
  | some p =>
      if p = "tcp" ∨ p = "udp" then
        match r.from_port, r.to_port with
        | some f, some t =>
            if f = t then ["--dport", toString f]
            else ["-m", "multiport", "--dports", toString f ++ ":" ++ toString t]
        | _, _ => []
      else if p = "icmp" then
        match r.from_port, r.to_port with
        | some f, some t =>
            if f = -1 then []
            else if t = -1 then ["--icmp-type", toString f]
            else ["--icmp-type", toString f ++ "/" ++ toString t]
        | _, _ => []
      else []

/-- Modelled from the spec (4.1): expansion of one rule at one destination
address of one family.  A CIDR-sourced rule emits one concrete rule when the
CIDR is of the matching family; a grantee-group rule resolves the group's
current members through the live `members` query and emits one concrete rule
per matching-family member address, that address (as a /32 or /128) as the
source CIDR; a rule with neither emits one accept-all rule scoped only by
the destination address. -/
def expandRuleAt (members : Nat → List FixedIP) (version : Nat)
    (r : SecurityGroupRule) (dest : String) : List ConcreteRule :=
  match r.cidr with
  | some c =>
      if cidrVersion c = version then
        [⟨r.protocol, shapePorts r, some c, dest⟩]
      else []
  | none =>
      match r.grantee_group with
      | some g =>
          ((members g).filter (fun ip => ip.version = version)).map
            (fun ip => ⟨r.protocol, shapePorts r,
              some (ip.address ++ hostSuffix version), dest⟩)
      | none => [⟨r.protocol, shapePorts r, none, dest⟩]

/-- Modelled from the spec (4.1): one family's half of expand — for every
rule in every attached group, for every network interface of the instance,
for every address of the matching family on that interface, expand the rule
at that destination address. -/
def expandFamily (members : Nat → List FixedIP) (version : Nat)
    (groups : List (List SecurityGroupRule)) (interfaces : List (List FixedIP)) :
    List ConcreteRule :=
  groups.flatMap (fun rules =>
    rules.flatMap (fun r =>
      interfaces.flatMap (fun ifaddrs =>
        (ifaddrs.filter (fun ip => ip.version = version)).flatMap
          (fun ip => expandRuleAt members version r ip.address))))

/-- Modelled from the spec (4.1): expand(instance, attachedGroups) returns
the ordered v4 and v6 concrete rule sequences. -/
def expand (members : Nat → List FixedIP)
    (groups : List (List SecurityGroupRule)) (interfaces : List (List FixedIP)) :
    List ConcreteRule × List ConcreteRule :=
  (expandFamily members 4 groups interfaces, expandFamily members 6 groups interfaces)

/-- C3: a grantee-group rule (no CIDR) expands, at each destination address
of a family, to exactly one concrete rule per matching-family member address,
that member address (suffixed as a host CIDR) as the source; in particular a
single such rule with no ports and no protocol, matched against a dual-stack
instance with one v4 and one v6 source member, expands to exactly two
concrete rules, one per family. -/
theorem grantee_group_expansion (members : Nat → List FixedIP) (g : Nat)
    (version : Nat) (r : SecurityGroupRule) (dest : String)
    (hcidr : r.cidr = none) (hgrant : r.grantee_group = some g) :
    (expandRuleAt members version r dest).map ConcreteRule.source
        = ((members g).filter (fun ip => ip.version = version)).map
            (fun ip => some (ip.address ++ hostSuffix version))
    ∧ (expandRuleAt members version r dest).length
        = ((members g).filter (fun ip => ip.version = version)).length
    ∧ (expand (fun gid => if gid = g then [⟨"10.0.0.5", 4⟩, ⟨"fe80::5", 6⟩] else [])
          [[⟨none, none, none, none, some g⟩]]
          [[⟨"192.168.1.100", 4⟩, ⟨"2001:db8::1", 6⟩]]).1
        = [⟨none, [], some "10.0.0.5/32", "192.168.1.100"⟩]
    ∧ (expand (fun gid => if gid = g then [⟨"10.0.0.5", 4⟩, ⟨"fe80::5", 6⟩] else [])
          [[⟨none, none, none, none, some g⟩]]
          [[⟨"192.168.1.100", 4⟩, ⟨"2001:db8::1", 6⟩]]).2
        = [⟨none, [], some "fe80::5/128", "2001:db8::1"⟩] := by
  refine ⟨?_, ?_, ?_, ?_⟩
  · simp [expandRuleAt, hcidr, hgrant]
  · simp [expandRuleAt, hcidr, hgrant]
  · simp [expand, expandFamily, expandRuleAt, shapePorts, hostSuffix, cidrVersion]
  · simp [expand, expandFamily, expandRuleAt, shapePorts, hostSuffix, cidrVersion]

/-- Witness for C3: the dual-stack example itself — one grantee-group rule,
one v4 and one v6 member, two destinations — yields exactly one v4 and one
v6 concrete rule with the member addresses as sources. -/
theorem grantee_group_expansion_witness :
    (expandRuleAt (fun _ => [⟨"10.0.0.5", 4⟩, ⟨"fe80::5", 6⟩]) 4
        ⟨none, none, none, none, some 2⟩ "192.168.1.100").map ConcreteRule.source
      = [some "10.0.0.5/32"]
    ∧ (expandRuleAt (fun _ => [⟨"10.0.0.5", 4⟩, ⟨"fe80::5", 6⟩]) 4
        ⟨none, none, none, none, some 2⟩ "192.168.1.100").length = 1 := by
  have h := grantee_group_expansion (fun _ => [⟨"10.0.0.5", 4⟩, ⟨"fe80::5", 6⟩]) 2 4
    ⟨none, none, none, none, some 2⟩ "192.168.1.100" rfl rfl
  refine ⟨?_, ?_⟩
  · rw [h.1]; rfl
  · rw [h.2.1]; rfl

/-! ## Hypervisor-filter compiler: data model -/

/-- A parameterized reference from one filter object to another, by name. -/
structure FilterRef where
  filter : String
  parameters : List (String × String)
deriving DecidableEq, Repr

/-- Modelled from the spec: FilterObject — "a name, a unique identifier, a
set of filter-reference dependencies (by name, optionally parameterized),
and a serialized body"; the body is fully determined by the references here,
so it is not duplicated. -/
structure NWFilter where
  name : String
  uuid : String
  filterrefs : List FilterRef
deriving DecidableEq, Repr

/-- The set of filters currently defined with the hypervisor, in definition
order. -/
abbrev NWFilterState := List NWFilter

/-- Hypervisor lookup of a filter by name. -/
def lookupFilter (s : NWFilterState) (name : String) : Option NWFilter :=
  s.find? (fun f => f.name = name)

/-- Modelled from the spec: "define filter from document (idempotent upsert
keyed by name+identity)" — an unknown name is added; a known name bound to
the same identity has its body replaced; a known name bound to a different
identity is a conflict and fails rather than silently overwriting. -/
def nwfilterDefineXML (s : NWFilterState) (f : NWFilter) : Except String NWFilterState :=
  match lookupFilter s f.name with
  | none => Except.ok (s ++ [f])
  | some old =>
      if old.uuid = f.uuid then
        Except.ok (s.map (fun g => if g.name = f.name then f else g))
      else
        Except.error ("Mismatching name " ++ f.name)

/-- Define a sequence of filter objects in order, stopping at the first
failure. -/
def defineAll (s : NWFilterState) : List NWFilter → Except String NWFilterState
  | [] => Except.ok s
  | f :: rest =>
      match nwfilterDefineXML s f with
      | Except.ok s1 => defineAll s1 rest
      | Except.error e => Except.error e

/-- Hypervisor undefine of a filter by name (a no-op when the name was
already gone, mirroring the lookup-then-undefine idiom). -/
def undefineFilter (s : NWFilterState) (name : String) : NWFilterState :=
  s.filter (fun f => f.name ≠ name)

/-! ## Hypervisor-filter compiler: instance attachment data -/

/-- One subnet attachment of an interface: address family, network and
prefix length, addresses of this interface on the subnet, and optional
gateway and DHCP-server metadata. -/
structure Subnet where
  version : Nat
  net : String
  prefixlen : Nat
  ips : List String
  gateway : Option String
  dhcp_server : Option String
deriving DecidableEq, Repr

/-- One network interface of an instance: its mac address and its subnet
attachments. -/
structure VIF where
  address : String
  subnets : List Subnet
deriving DecidableEq, Repr

/-- The normalized interface identifier: the mac address with the colons
stripped. -/
def nicId (mac : String) : String :=
  ⟨mac.data.filter (fun c => c ≠ ':')⟩

/-- The deterministic identity token of a filter object, derived from its
name (so redefining the same object carries the same identity). -/
def uuidOf (n : String) : String :=
  n ++ "-uuid"

/-- The pre-existing base-tier filters (anti-spoofing for MAC, IP and ARP,
plus the DHCP permission); these are never created by this system. -/
def baseFilterNames : List String :=
  ["no-mac-spoofing", "no-ip-spoofing", "no-arp-spoofing"]

/-- Modelled from the spec: the no-DHCP group-tier variant references the
pre-existing anti-spoofing base filters only. -/
def novaNoDHCPFilter : NWFilter :=
  ⟨"nova-nodhcp", uuidOf "nova-nodhcp", baseFilterNames.map (fun n => ⟨n, []⟩)⟩

/-- Modelled from the spec: the DHCP-enabled group-tier variant references
the anti-spoofing base filters plus the DHCP permission. -/
def novaBaseFilter : NWFilter :=
  ⟨"nova-base", uuidOf "nova-base",
    (baseFilterNames ++ ["allow-dhcp-server"]).map (fun n => ⟨n, []⟩)⟩

/-- Whether a DHCP server is configured on any of this interface's
subnets. -/
def vifHasDHCP (vif : VIF) : Bool :=
  vif.subnets.any (fun s => s.dhcp_server.isSome)

/-- The group-tier filter an interface filter references, "chosen by DHCP
availability: a DHCP-enabled variant when a DHCP server is configured on the
subnet, a no-DHCP variant otherwise". -/
def groupFilterNameFor (vif : VIF) : String :=
  if vifHasDHCP vif then "nova-base" else "nova-nodhcp"

/-- The fixed set of recognized interface-filter parameter names. -/
def recognizedParameterNames : List String :=
  ["IP", "DHCPSERVER", "RASERVER", "PROJNET", "PROJMASK", "PROJNET6", "PROJMASK6"]

/-- Dotted-quad netmask of a v4 prefix length. -/
def v4NetmaskOf (p : Nat) : String :=
  let m := 2 ^ 32 - 2 ^ (32 - p)
  toString (m / 2 ^ 24 % 256) ++ "." ++ toString (m / 2 ^ 16 % 256) ++ "."
    ++ toString (m / 2 ^ 8 % 256) ++ "." ++ toString (m % 256)

/-- Modelled from the spec: the parameters carried on an interface filter's
group-tier reference, resolved from the interface's subnets — IP (the
interface's v4 address), DHCPSERVER (the v4 subnet's configured DHCP server,
or absent), PROJNET/PROJMASK (v4 network and mask), RASERVER (v6 gateway
address with a /128 suffix), PROJNET6/PROJMASK6 (v6 network and prefix
length). -/
def _get_instance_filter_parameters (vif : VIF) : List (String × String) :=
  vif.subnets.flatMap (fun s =>
    if s.version = 4 then
      s.ips.map (fun ip => ("IP", ip))
      ++ (match s.dhcp_server with
          | some d => [("DHCPSERVER", d)]
          | none => [])
      ++ [("PROJNET", s.net), ("PROJMASK", v4NetmaskOf s.prefixlen)]
    else
      (match s.gateway with
        | some g => [("RASERVER", g ++ "/128")]
        | none => [])
      ++ [("PROJNET6", s.net), ("PROJMASK6", toString s.prefixlen)])

/-- The interface-tier filter object's name, built "deterministically from
the instance and a normalized interface identifier". -/
def _instance_filter_name (inst : InstanceRef) (nic : String) : String :=
  "nova-instance-" ++ inst.name ++ "-" ++ nic

/-- The interface-tier filter object for one interface: it references the
group-tier variant selected by this interface's own DHCP configuration and
carries the parameters resolved from this interface's subnets. -/
def instanceFilter (inst : InstanceRef) (vif : VIF) : NWFilter :=
  ⟨_instance_filter_name inst (nicId vif.address),
   uuidOf (_instance_filter_name inst (nicId vif.address)),
   [⟨groupFilterNameFor vif, _get_instance_filter_parameters vif⟩]⟩

/-- Modelled from the spec: the ordered sequence of define calls issued by
`setup_basic_filtering` — strict dependency order, leaves first: the two
group-tier variants (whose dependencies, the base filters, pre-exist), then
one interface-tier filter per interface. -/
def setupDefines (inst : InstanceRef) (vifs : List VIF) : List NWFilter :=
  [novaNoDHCPFilter, novaBaseFilter] ++ vifs.map (instanceFilter inst)

/-- Modelled from the spec: `setup_basic_filtering(instance, attachments)`
issues the define calls of `setupDefines` in order against the current
hypervisor filter state. -/
def setup_basic_filtering (s : NWFilterState) (inst : InstanceRef)
    (vifs : List VIF) : Except String NWFilterState :=
  defineAll s (setupDefines inst vifs)

/-- The names of the interface-tier filter objects of an instance for a
given attachment list. -/
def instanceFilterNames (inst : InstanceRef) (vifs : List VIF) : List String :=
  vifs.map (fun vif => _instance_filter_name inst (nicId vif.address))

/-- Modelled from the spec: `unfilter_instance` "removes exactly the
interface-tier filter object(s) for this instance; never removes group- or
base-tier objects". -/
def unfilter_instance (s : NWFilterState) (inst : InstanceRef)
    (vifs : List VIF) : NWFilterState :=
  vifs.foldl (fun acc vif => undefineFilter acc (_instance_filter_name inst (nicId vif.address))) s

/-- The names of the filters currently defined. -/
def definedNames (s : NWFilterState) : List String :=
  s.map NWFilter.name

/-- Whether a sequence of define calls respects strict dependency order
starting from an already-defined name set: each define's filter references
name only filters defined before it. -/
def depsRespectedFrom (names : List String) : List NWFilter → Bool
  | [] => true
  | f :: rest =>
      f.filterrefs.all (fun ref => names.contains ref.filter)
        && depsRespectedFrom (names ++ [f.name]) rest

/-! ### Dependency order of the define sequence -/

theorem depsRespected_instance_filters (inst : InstanceRef) (vifs : List VIF)
    (names : List String) (hb : "nova-base" ∈ names) (hn : "nova-nodhcp" ∈ names) :
    depsRespectedFrom names (vifs.map (instanceFilter inst)) = true := by
  induction vifs generalizing names with
  | nil => rfl
  | cons v vs ih =>
      simp only [List.map_cons, depsRespectedFrom, Bool.and_eq_true]
      refine ⟨?_, ih _ (by simp [hb]) (by simp [hn])⟩
      simp only [instanceFilter, List.all_cons, List.all_nil, Bool.and_true,
        List.elem_iff, groupFilterNameFor]
      split <;> simp_all [List.contains]

/-- C4: `setup_basic_filtering` issues its define calls in strict dependency
order, leaves first: provided the base-tier filters pre-exist, every filter
reference inside each object being defined names a filter already defined at
that point in the sequence — the group-tier variants reference only
pre-existing base filters, and every interface-tier filter is defined after
the group-tier filter it references. -/
theorem setup_defines_in_dependency_order (s0 : NWFilterState) (inst : InstanceRef)
    (vifs : List VIF)
    (hbase : ∀ n ∈ baseFilterNames ++ ["allow-dhcp-server"], n ∈ definedNames s0) :
    depsRespectedFrom (definedNames s0) (setupDefines inst vifs) = true := by
  simp only [setupDefines, List.cons_append, List.nil_append, depsRespectedFrom,
    Bool.and_eq_true]
  have h1 := hbase "no-mac-spoofing" (by simp [baseFilterNames])
  have h2 := hbase "no-ip-spoofing" (by simp [baseFilterNames])
  have h3 := hbase "no-arp-spoofing" (by simp [baseFilterNames])
  have h4 := hbase "allow-dhcp-server" (by simp [baseFilterNames])
  refine ⟨?_, ?_, ?_⟩
  · simp [novaNoDHCPFilter, baseFilterNames, h1, h2, h3]
  · simp [novaBaseFilter, baseFilterNames, List.mem_append, h1, h2, h3, h4]
  · exact depsRespected_instance_filters inst vifs _
      (by simp [novaBaseFilter, novaNoDHCPFilter]) (by simp [novaNoDHCPFilter])

/-- A concrete attachment used by the witnesses: a dual-stack interface with
a DHCP server configured on its v4 subnet. -/
def sampleVif : VIF :=
  ⟨"ca:fe:de:ad:be:ef",
   [⟨4, "192.168.1.0", 24, ["192.168.1.100"], some "192.168.1.1", some "192.168.1.1"⟩,
    ⟨6, "2001:db8::", 64, ["2001:db8::1"], some "fe80::1", none⟩]⟩

/-- A concrete attachment used by the witnesses: a v4-only interface with no
DHCP server. -/
def sampleVifNoDHCP : VIF :=
  ⟨"de:ad:be:ef:ca:fe",
   [⟨4, "192.168.2.0", 24, ["192.168.2.100"], some "192.168.2.1", none⟩]⟩

/-- The pre-existing base-tier filter objects as the hypervisor holds them
before any setup call. -/
def preexistingBaseState : NWFilterState :=
  [⟨"no-mac-spoofing", uuidOf "no-mac-spoofing", []⟩,
   ⟨"no-ip-spoofing", uuidOf "no-ip-spoofing", []⟩,
   ⟨"no-arp-spoofing", uuidOf "no-arp-spoofing", []⟩,
   ⟨"allow-dhcp-server", uuidOf "allow-dhcp-server", []⟩]

/-- A concrete instance used by the witnesses. -/
def sampleInstance : InstanceRef :=
  ⟨7, "74526555-9166-4893-a203-126bdcab0d67", "instance-00000007"⟩

/-- Witness for C4: with the four pre-existing base filters defined, the
define sequence for a one-interface instance respects dependency order. -/
theorem setup_defines_in_dependency_order_witness :
    depsRespectedFrom (definedNames preexistingBaseState)
      (setupDefines sampleInstance [sampleVif]) = true :=
  setup_defines_in_dependency_order preexistingBaseState sampleInstance [sampleVif]
    (by decide)

/-! ### Lookup and define lemmas -/

theorem lookupFilter_append_of_none (a b : NWFilterState) (n : String)
    (h : lookupFilter a n = none) : lookupFilter (a ++ b) n = lookupFilter b n := by
  induction a with
  | nil => rfl
  | cons f fs ih =>
      by_cases hfn : f.name = n
      · simp [lookupFilter, List.find?_cons_of_pos, hfn] at h
      · unfold lookupFilter at h ⊢
        rw [List.find?_cons_of_neg _ (by simpa using hfn)] at h
        rw [List.cons_append, List.find?_cons_of_neg _ (by simpa using hfn)]
        exact ih h

theorem lookupFilter_eq_none_iff (s : NWFilterState) (n : String) :
    lookupFilter s n = none ↔ n ∉ definedNames s := by
  simp only [lookupFilter, List.find?_eq_none, definedNames, List.mem_map,
    decide_eq_true_eq]
  aesop

theorem lookupFilter_self_of_nodup (s : NWFilterState) (f : NWFilter)
    (hnodup : (definedNames s).Nodup) (hf : f ∈ s) :
    lookupFilter s f.name = some f := by
  induction s with
  | nil => cases hf
  | cons g gs ih =>
      have hnames : definedNames (g :: gs) = g.name :: definedNames gs := rfl
      rw [hnames, List.nodup_cons] at hnodup
      rcases List.mem_cons.mp hf with rfl | hmem
      · simp [lookupFilter, List.find?_cons_of_pos]
      · have hgn : g.name ≠ f.name := by
          intro heq
          exact hnodup.1 (heq ▸ List.mem_map_of_mem NWFilter.name hmem)
        unfold lookupFilter
        rw [List.find?_cons_of_neg _ (by simpa using hgn)]
        exact ih hnodup.2 hmem

theorem replace_self_of_nodup (s : NWFilterState) (f : NWFilter)
    (hnodup : (definedNames s).Nodup) (hf : f ∈ s) :
    s.map (fun g => if g.name = f.name then f else g) = s := by
  induction s with
  | nil => rfl
  | cons g gs ih =>
      have hnames : definedNames (g :: gs) = g.name :: definedNames gs := rfl
      rw [hnames, List.nodup_cons] at hnodup
      rw [List.map_cons]
      rcases List.mem_cons.mp hf with rfl | hmem
      · rw [if_pos rfl]
        congr 1
        have hall : ∀ x ∈ gs, (if x.name = f.name then f else x) = x := by
          intro x hx
          rw [if_neg]
          intro heq
          exact hnodup.1 (heq ▸ List.mem_map_of_mem NWFilter.name hx)
        rw [List.map_congr_left hall]
        simp
      · have hgn : g.name ≠ f.name := by
          intro heq
          exact hnodup.1 (heq ▸ List.mem_map_of_mem NWFilter.name hmem)
        rw [if_neg hgn, ih hnodup.2 hmem]

theorem definedNames_append (a b : NWFilterState) :
    definedNames (a ++ b) = definedNames a ++ definedNames b := by
  simp [definedNames]

theorem defineAll_fresh (ds : List NWFilter) (s : NWFilterState)
    (hfresh : ∀ f ∈ ds, lookupFilter s f.name = none)
    (hdist : (definedNames ds).Nodup) :
    defineAll s ds = Except.ok (s ++ ds) := by
  induction ds generalizing s with
  | nil => simp [defineAll]
  | cons f rest ih =>
      have hnames : definedNames (f :: rest) = f.name :: definedNames rest := rfl
      rw [hnames, List.nodup_cons] at hdist
      have hf := hfresh f (List.mem_cons_self f rest)
      simp only [defineAll, nwfilterDefineXML, hf]
      have hstep := ih (s ++ [f]) ?_ hdist.2
      · rw [hstep, List.append_assoc]
        rfl
      · intro g hg
        have hgs : lookupFilter s g.name = none := hfresh g (List.mem_cons_of_mem f hg)
        rw [lookupFilter_append_of_none _ _ _ hgs]
        have hne : f.name ≠ g.name := by
          intro heq
          exact hdist.1 (heq ▸ List.mem_map_of_mem NWFilter.name hg)
        unfold lookupFilter
        rw [List.find?_cons_of_neg _ (by simpa using fun h => hne h)]
        rfl

theorem defineAll_noop (ds : List NWFilter) (s : NWFilterState)
    (hin : ∀ f ∈ ds, lookupFilter s f.name = some f)
    (hnodup : (definedNames s).Nodup) :
    defineAll s ds = Except.ok s := by
  induction ds with
  | nil => rfl
  | cons f rest ih =>
      have hf := hin f (List.mem_cons_self f rest)
      have hfs : f ∈ s := List.mem_of_find?_eq_some hf
      simp only [defineAll, nwfilterDefineXML, hf, if_pos rfl]
      rw [replace_self_of_nodup s f hnodup hfs]
      exact ih (fun g hg => hin g (List.mem_cons_of_mem f hg))

/-- C7: `setup_basic_filtering` is idempotent on the set of defined filter
objects: from a state where none of its objects exist yet, the first
invocation defines them, and a second invocation with unchanged attachment
data completes without error and leaves the hypervisor state exactly as it
was — no new objects, no duplicate objects, no duplicate dependency
edges. -/
theorem setup_basic_filtering_idempotent (s0 : NWFilterState) (inst : InstanceRef)
    (vifs : List VIF)
    (hfresh : ∀ f ∈ setupDefines inst vifs, lookupFilter s0 f.name = none)
    (hdist : (definedNames (setupDefines inst vifs)).Nodup)
    (hnodup0 : (definedNames s0).Nodup) :
    setup_basic_filtering s0 inst vifs = Except.ok (s0 ++ setupDefines inst vifs)
    ∧ setup_basic_filtering (s0 ++ setupDefines inst vifs) inst vifs
        = Except.ok (s0 ++ setupDefines inst vifs) := by
  refine ⟨defineAll_fresh _ _ hfresh hdist, ?_⟩
  apply defineAll_noop
  · intro f hf
    rw [lookupFilter_append_of_none _ _ _ (hfresh f hf)]
    exact lookupFilter_self_of_nodup _ f hdist hf
  · rw [definedNames_append]
    refine List.Nodup.append hnodup0 hdist ?_
    intro n hn0 hnd
    obtain ⟨f, hf, rfl⟩ := List.mem_map.mp hnd
    exact (lookupFilter_eq_none_iff s0 f.name).mp (hfresh f hf) hn0

/-- Witness for C7: the two-interface setup on top of the pre-existing base
filters; running it a second time returns the same state unchanged. -/
theorem setup_basic_filtering_idempotent_witness :
    setup_basic_filtering preexistingBaseState sampleInstance [sampleVif, sampleVifNoDHCP]
        = Except.ok (preexistingBaseState
            ++ setupDefines sampleInstance [sampleVif, sampleVifNoDHCP])
    ∧ setup_basic_filtering
        (preexistingBaseState ++ setupDefines sampleInstance [sampleVif, sampleVifNoDHCP])
        sampleInstance [sampleVif, sampleVifNoDHCP]
        = Except.ok (preexistingBaseState
            ++ setupDefines sampleInstance [sampleVif, sampleVifNoDHCP]) :=
  setup_basic_filtering_idempotent preexistingBaseState sampleInstance
    [sampleVif, sampleVifNoDHCP] (by decide) (by decide) (by decide)

/-- C6: setup produces exactly one interface-tier filter object per network
interface — the define sequence past the two group-tier defines is exactly
one object per interface — and each interface's object references the
group-tier variant selected by that interface's own DHCP configuration, so
mixed DHCP/no-DHCP interfaces of one instance reference different group-tier
filters. -/
theorem setup_one_filter_per_interface (s0 : NWFilterState) (inst : InstanceRef)
    (vifs : List VIF)
    (hfresh : ∀ f ∈ setupDefines inst vifs, lookupFilter s0 f.name = none)
    (hdist : (definedNames (setupDefines inst vifs)).Nodup) :
    setup_basic_filtering s0 inst vifs = Except.ok (s0 ++ setupDefines inst vifs)
    ∧ (setupDefines inst vifs).drop 2 = vifs.map (instanceFilter inst)
    ∧ (vifs.map (instanceFilter inst)).length = vifs.length
    ∧ (∀ vif ∈ vifs, (instanceFilter inst vif).filterrefs.map FilterRef.filter
        = [if vifHasDHCP vif = true then "nova-base" else "nova-nodhcp"])
    ∧ (∀ v1 ∈ vifs, ∀ v2 ∈ vifs, vifHasDHCP v1 = true → vifHasDHCP v2 = false →
        (instanceFilter inst v1).filterrefs.map FilterRef.filter
          ≠ (instanceFilter inst v2).filterrefs.map FilterRef.filter) := by
  have hrefs : ∀ vif : VIF, (instanceFilter inst vif).filterrefs.map FilterRef.filter
      = [if vifHasDHCP vif = true then "nova-base" else "nova-nodhcp"] := by
    intro vif
    simp [instanceFilter, groupFilterNameFor]
  refine ⟨defineAll_fresh _ _ hfresh hdist, by simp [setupDefines], by simp,
    fun vif _ => hrefs vif, ?_⟩
  intro v1 _ v2 _ h1 h2
  rw [hrefs v1, hrefs v2, h1, h2]
  simp

/-- Witness for C6: a two-interface instance with mixed DHCP configuration —
the first interface's object references the DHCP-enabled variant, the second
the no-DHCP variant. -/
theorem setup_one_filter_per_interface_witness :
    ((setupDefines sampleInstance [sampleVif, sampleVifNoDHCP]).drop 2).length = 2
    ∧ (instanceFilter sampleInstance sampleVif).filterrefs.map FilterRef.filter
        = ["nova-base"]
    ∧ (instanceFilter sampleInstance sampleVifNoDHCP).filterrefs.map FilterRef.filter
        = ["nova-nodhcp"] := by
  have h := setup_one_filter_per_interface preexistingBaseState sampleInstance
    [sampleVif, sampleVifNoDHCP] (by decide) (by decide)
  refine ⟨by rw [h.2.1]; rfl, ?_, ?_⟩
  · have := h.2.2.2.1 sampleVif (by simp)
    rw [this]
    rfl
  · have := h.2.2.2.1 sampleVifNoDHCP (by simp)
    rw [this]
    rfl

/-! ### Teardown -/

theorem foldl_undefine (names : List String) (s : NWFilterState) :
    names.foldl undefineFilter s = s.filter (fun f => f.name ∉ names) := by
  induction names generalizing s with
  | nil => simp [List.filter_eq_self]
  | cons n ns ih =>
      simp only [List.foldl_cons, ih, undefineFilter, List.filter_filter]
      apply List.filter_congr
      intro f _
      by_cases h1 : f.name = n <;> by_cases h2 : f.name ∈ ns <;> simp [h1, h2]

/-- C5: `unfilter_instance` on the hypervisor-filter compiler removes exactly
the instance's interface-tier filter objects: the resulting state is the old
state minus precisely the filters bearing this instance's interface-filter
names, every other filter object (group-tier, base-tier, other instances')
survives, and nothing new appears. -/
theorem unfilter_removes_exactly_instance_filters (s : NWFilterState)
    (inst : InstanceRef) (vifs : List VIF) :
    unfilter_instance s inst vifs
        = s.filter (fun f => f.name ∉ instanceFilterNames inst vifs)
    ∧ (∀ f ∈ s, f.name ∉ instanceFilterNames inst vifs →
        f ∈ unfilter_instance s inst vifs)
    ∧ (∀ f ∈ unfilter_instance s inst vifs, f ∈ s)
    ∧ (∀ f ∈ unfilter_instance s inst vifs, f.name ∉ instanceFilterNames inst vifs) := by
  have hchar : unfilter_instance s inst vifs
      = s.filter (fun f => f.name ∉ instanceFilterNames inst vifs) := by
    unfold unfilter_instance
    rw [← foldl_undefine (instanceFilterNames inst vifs) s]
    unfold instanceFilterNames
    rw [List.foldl_map]
  refine ⟨hchar, ?_, ?_, ?_⟩
  · intro f hf hname
    rw [hchar]
    exact List.mem_filter.mpr ⟨hf, by simpa using hname⟩
  · intro f hf
    rw [hchar] at hf
    exact (List.mem_filter.mp hf).1
  · intro f hf
    rw [hchar] at hf
    simpa using (List.mem_filter.mp hf).2

/-- Witness for C5: after setting up a one-interface instance on top of the
pre-existing base filters, unfiltering it removes exactly one filter object
(the interface-tier one) and the base- and group-tier objects survive. -/
theorem unfilter_removes_exactly_instance_filters_witness :
    (unfilter_instance
        (preexistingBaseState ++ setupDefines sampleInstance [sampleVif])
        sampleInstance [sampleVif]).length + 1
      = (preexistingBaseState ++ setupDefines sampleInstance [sampleVif]).length
    ∧ novaBaseFilter ∈ unfilter_instance
        (preexistingBaseState ++ setupDefines sampleInstance [sampleVif])
        sampleInstance [sampleVif]
    ∧ novaNoDHCPFilter ∈ unfilter_instance
        (preexistingBaseState ++ setupDefines sampleInstance [sampleVif])
        sampleInstance [sampleVif] := by
  have h := unfilter_removes_exactly_instance_filters
    (preexistingBaseState ++ setupDefines sampleInstance [sampleVif])
    sampleInstance [sampleVif]
  refine ⟨by rw [h.1]; decide, ?_, ?_⟩
  · exact h.2.1 novaBaseFilter (by decide) (by decide)
  · exact h.2.1 novaNoDHCPFilter (by decide) (by decide)

/-! ### Interface-filter parameters -/

theorem param_mem_cases (vif : VIF) (p : String × String)
    (hp : p ∈ _get_instance_filter_parameters vif) :
    ∃ s ∈ vif.subnets,
      (s.version = 4 ∧ ((∃ ip ∈ s.ips, p = ("IP", ip))
          ∨ (∃ d, s.dhcp_server = some d ∧ p = ("DHCPSERVER", d))
          ∨ p = ("PROJNET", s.net)
          ∨ p = ("PROJMASK", v4NetmaskOf s.prefixlen)))
      ∨ (¬ s.version = 4 ∧ ((∃ g, s.gateway = some g ∧ p = ("RASERVER", g ++ "/128"))
          ∨ p = ("PROJNET6", s.net)
          ∨ p = ("PROJMASK6", toString s.prefixlen))) := by
  unfold _get_instance_filter_parameters at hp
  simp only [List.mem_flatMap] at hp
  obtain ⟨s, hs, hmem⟩ := hp
  refine ⟨s, hs, ?_⟩
  by_cases hv : s.version = 4
  · rw [if_pos hv] at hmem
    left
    refine ⟨hv, ?_⟩
    rcases hd : s.dhcp_server with _ | d <;> rw [hd] at hmem <;>
      simp only [List.mem_append, List.mem_map, List.mem_cons,
        List.not_mem_nil, or_false, List.nil_append] at hmem <;>
      aesop
  · rw [if_neg hv] at hmem
    right
    refine ⟨hv, ?_⟩
    rcases hg : s.gateway with _ | g <;> rw [hg] at hmem <;>
      simp only [List.mem_append, List.mem_cons, List.not_mem_nil, or_false,
        List.nil_append] at hmem <;>
      aesop

/-- C8: every parameter carried on the group-tier reference of an
interface-tier filter object has a name from the fixed recognized set, and
each parameter's value is the corresponding datum resolved from the
interface's own subnets (IP a v4 address of the interface, DHCPSERVER the v4
subnet's DHCP server, RASERVER the v6 gateway suffixed /128, PROJNET and
PROJMASK the v4 subnet's network and mask, PROJNET6 and PROJMASK6 the v6
network and prefix length). -/
theorem interface_filter_parameters_recognized (inst : InstanceRef) (vif : VIF) :
    (instanceFilter inst vif).filterrefs.map FilterRef.parameters
        = [_get_instance_filter_parameters vif]
    ∧ (∀ p ∈ _get_instance_filter_parameters vif, p.1 ∈ recognizedParameterNames)
    ∧ (∀ p ∈ _get_instance_filter_parameters vif,
        ∃ s ∈ vif.subnets,
          (s.version = 4 ∧ ((∃ ip ∈ s.ips, p = ("IP", ip))
              ∨ (∃ d, s.dhcp_server = some d ∧ p = ("DHCPSERVER", d))
              ∨ p = ("PROJNET", s.net)
              ∨ p = ("PROJMASK", v4NetmaskOf s.prefixlen)))
          ∨ (¬ s.version = 4 ∧ ((∃ g, s.gateway = some g ∧ p = ("RASERVER", g ++ "/128"))
              ∨ p = ("PROJNET6", s.net)
              ∨ p = ("PROJMASK6", toString s.prefixlen)))) := by
  refine ⟨rfl, ?_, fun p hp => param_mem_cases vif p hp⟩
  intro p hp
  obtain ⟨s, _, hcase⟩ := param_mem_cases vif p hp
  rcases hcase with ⟨_, h⟩ | ⟨_, h⟩
  · rcases h with ⟨x, _, rfl⟩ | ⟨x, _, rfl⟩ | rfl | rfl <;>
      simp [recognizedParameterNames]
  · rcases h with ⟨x, _, rfl⟩ | rfl | rfl <;>
      simp [recognizedParameterNames]

/-- Witness for C8: the dual-stack sample interface — its RASERVER parameter
is present, carries the v6 gateway with the /128 suffix, and every parameter
name of the interface object is in the recognized set. -/
theorem interface_filter_parameters_recognized_witness :
    ("RASERVER", "fe80::1/128") ∈ _get_instance_filter_parameters sampleVif
    ∧ ("RASERVER" : String) ∈ recognizedParameterNames
    ∧ ("IP" : String) ∈ recognizedParameterNames := by
  refine ⟨by decide, ?_, ?_⟩
  · exact (interface_filter_parameters_recognized sampleInstance sampleVif).2.1
      ("RASERVER", "fe80::1/128") (by decide)
  · exact (interface_filter_parameters_recognized sampleInstance sampleVif).2.1
      ("IP", "192.168.1.100") (by decide)

end NovaFirewall
